import Mathlib

/-!
Verification development for the vexSHARE session multiplexer
(`internal/session/session.go`).

The Go code is embedded shallowly: the session's mutable state becomes a
Lean structure, each method becomes a pure state-transformer, and the
messages written to a participant's websocket are accumulated in a
per-participant `sent` log.  Concurrency is modelled by interleaving these
atomic operations (each Go method body runs under the session mutex, so a
sequential interleaving of whole operations is faithful for the properties
studied here).  Machine integers do not overflow in any of the modelled
code paths, so `Nat` is used throughout.
-/

set_option maxHeartbeats 1000000

namespace VexShare

/-- Outbound message envelopes written by the session to a participant
channel, as produced in `session.go`.  `role r sharedInput` models the JSON
object written by `AddClient` (`sharedInput = some b`, both fields present)
and by the promotion path of `RemoveClient` (`sharedInput = none`: the raw
payload is the two-field-free literal with only the role, i.e. the
`sharedInput` key is absent).  `clients n` models the participant-count
update, `output data` the broadcast of raw PTY bytes (its JSON encoding is
modelled separately below). -/
inductive Msg where
  | role (r : String) (sharedInput : Option Bool)
  | clients (count : Nat)
  | output (data : List Nat)
deriving DecidableEq

/-- One participant record (`Client` in session.go): its opaque id, the
`IsController` flag, and the log of messages delivered on its channel (the
per-client write mutex serializes these, so a list is faithful). -/
structure Client where
  id : String
  isController : Bool
  sent : List Msg
deriving DecidableEq

/-- The session state (`Session` in session.go).  The Go map
`clients map[string]*Client` is modelled as an association list keyed by
`id`; Go's unspecified map iteration order is fixed to list order (the spec
leaves the succession tie-break unspecified).  `closed` is the
`sync.Once` latch, `doneClosed` records that the `done` channel has been
closed, `ptyWrites` logs the byte sequences written to the PTY master, and
`onCloseCount` counts invocations of the `OnClose` callback. -/
structure Session where
  clients : List Client
  sharedInput : Bool
  idleTimeout : Nat
  lastActive : Nat
  closed : Bool
  doneClosed : Bool
  ptyClosed : Bool
  procRunning : Bool
  ptyWrites : List (List Nat)
  onCloseCount : Nat
deriving DecidableEq

/-- A freshly constructed session (`New` in session.go): empty participant
set, child process running, PTY open, `done` not yet signalled.
Construction time is taken as instant `0`. -/
def newSession (sharedInput : Bool) (idleTimeout : Nat) : Session :=
  { clients := []
    sharedInput := sharedInput
    idleTimeout := idleTimeout
    lastActive := 0
    closed := false
    doneClosed := false
    ptyClosed := false
    procRunning := true
    ptyWrites := []
    onCloseCount := 0 }

/-- Go map assignment `s.clients[id] = c`: replace the record with the same
id if present, otherwise add the new record. -/
def insertClient (c : Client) : List Client → List Client
  | [] => [c]
  | d :: t => if d.id = c.id then c :: t else d :: insertClient c t

/-- Go map lookup `s.clients[id]`. -/
def findClient (id : String) : List Client → Option Client
  | [] => none
  | c :: t => if c.id = id then some c else findClient id t

/-- Go map deletion `delete(s.clients, id)`. -/
def eraseClient (id : String) : List Client → List Client
  | [] => []
  | c :: t => if c.id = id then t else c :: eraseClient id t

/-- Delivery of one message on the channel of the participant with the
given id (a `WriteJSON` call on that client). -/
def sendToClient (id : String) (m : Msg) : List Client → List Client
  | [] => []
  | c :: t =>
    if c.id = id then { c with sent := c.sent ++ [m] } :: t
    else c :: sendToClient id m t

/-- The `broadcastClientCount` method: snapshot the set size and deliver a
`clients` count message to every participant. -/
def broadcastClientCount (s : Session) : Session :=
  let n := s.clients.length
  { s with clients := s.clients.map (fun c => { c with sent := c.sent ++ [Msg.clients n] }) }

/-- The `AddClient` method: decide `isController := len(clients) == 0`
before inserting, insert the fresh record, send it its `role` message
(role and the session's shared-input flag), then broadcast the new count. -/
def addClient (s : Session) (id : String) : Session :=
  let isController := s.clients.isEmpty
  let role := if isController then "controller" else "viewer"
  let c : Client := { id := id, isController := isController, sent := [] }
  let s1 : Session := { s with clients := insertClient c s.clients }
  let s2 : Session :=
    { s1 with clients := sendToClient id (Msg.role role (some s.sharedInput)) s1.clients }
  broadcastClientCount s2

/-- The promotion message `RemoveClient` sends: raw JSON with only the role
field; the `sharedInput` key is absent (`none`). -/
def promoteMsg : Msg := Msg.role "controller" none

/-- Promotion loop of `RemoveClient`: the `for ... break` promotes exactly
one remaining participant (here the first in the model's order), sets its
`IsController` and sends it the promotion `role` message. -/
def promoteFirst : List Client → List Client
  | [] => []
  | c :: t => { c with isController := true, sent := c.sent ++ [promoteMsg] } :: t

/-- The succession block of `RemoveClient`: `if wasController &&
len(s.clients) > 0`, promote one remaining participant, else leave the
remaining set as is. -/
def successorStep (wasController : Bool) (rest : List Client) : List Client :=
  if wasController = true ∧ rest ≠ [] then promoteFirst rest else rest

/-- The `RemoveClient` method: no-op when the id is absent; otherwise
capture `wasController`, delete the record, promote one remaining
participant when the controller left a non-empty set, then broadcast the
new count (the departing connection is closed, so it receives nothing). -/
def removeClient (s : Session) (id : String) : Session :=
  match findClient id s.clients with
  | none => s
  | some c =>
    broadcastClientCount
      { s with clients := successorStep c.isController (eraseClient id s.clients) }

/-- The `Close` method: the `sync.Once` latch makes every call after the
first a no-op.  The first call closes `done`, evicts every participant
(each connection is closed and deleted from the set), closes the PTY
master, kills and reaps the child process, and invokes the `OnClose`
callback once. -/
def closeSession (s : Session) : Session :=
  if s.closed then s
  else
    { s with
      doneClosed := true
      clients := []
      ptyClosed := true
      procRunning := false
      onCloseCount := s.onCloseCount + 1
      closed := true }

/-- The `Done` accessor: whether the one-shot `done` signal has fired. -/
def doneSignalled (s : Session) : Bool := s.doneClosed

/-- The `ClientCount` accessor. -/
def clientCount (s : Session) : Nat := s.clients.length

/-- The `canWrite` check: `sharedInput || c.IsController`. -/
def canWrite (s : Session) (c : Client) : Bool :=
  if s.sharedInput then true else c.isController

/-- The `touchActivity` method: unconditional store of the current time. -/
def touchActivity (s : Session) (now : Nat) : Session :=
  { s with lastActive := now }

/-- Outcome of one iteration of a reader loop: keep reading, or return
(which triggers the deferred `RemoveClient` in `readClient`). -/
inductive ReadOutcome where
  | cont
  | exit
deriving DecidableEq

/-- One iteration of `readClient` handling an `input` envelope from
participant `c`.  `data` is `some payload` when `msg.Data` unmarshals to a
JSON string whose bytes are `payload`, and `none` when the data field is
absent or not a valid JSON string.  `writeOk` is the outcome of
`s.ptmx.Write`.  Order follows the source: arbitration first, then
unmarshal, then `touchActivity`, then the PTY write; a write error makes
the reader return (deferred removal), it does not call `Close`. -/
def handleInput (s : Session) (c : Client) (data : Option (List Nat))
    (writeOk : Bool) (now : Nat) : Session × ReadOutcome :=
  if !(canWrite s c) then (s, ReadOutcome.cont)
  else
    match data with
    | none => (s, ReadOutcome.cont)
    | some payload =>
      let s1 := touchActivity s now
      if writeOk then ({ s1 with ptyWrites := s1.ptyWrites ++ [payload] }, ReadOutcome.cont)
      else (s1, ReadOutcome.exit)

/-- Broadcast of one chunk of PTY output to every participant (the
`broadcast` method; the JSON encoding of the payload is modelled
separately). -/
def broadcastOutput (s : Session) (data : List Nat) : Session :=
  { s with clients := s.clients.map (fun c => { c with sent := c.sent ++ [Msg.output data] }) }

/-- One iteration of the `readPTY` loop: a successful read of `data`
updates `last_active` and broadcasts; any read error (including EOF, which
happens once the PTY master is closed) calls `Close` and stops. -/
def ptyReadStep (s : Session) (readResult : Option (List Nat)) (now : Nat) : Session :=
  match readResult with
  | some data => broadcastOutput (touchActivity s now) data
  | none => closeSession s

/-- Participant-set operations quantified over by the controller-uniqueness
claim. -/
inductive SessionOp where
  | add (id : String)
  | remove (id : String)
deriving DecidableEq

/-- Apply one participant-set operation. -/
def applyOp (s : Session) : SessionOp → Session
  | SessionOp.add id => addClient s id
  | SessionOp.remove id => removeClient s id

/-- Run a sequence of participant-set operations. -/
def runOps (s : Session) (ops : List SessionOp) : Session :=
  ops.foldl applyOp s

/-- Number of participants currently holding the controller flag. -/
def controllerCount (s : Session) : Nat :=
  s.clients.countP (fun c => c.isController)

/-- An operation sequence whose `add` steps always use an id that is not
currently in the participant set (the server generates a fresh random id
per connection). -/
def freshAdds (s : Session) : List SessionOp → Bool
  | [] => true
  | op :: rest =>
    (match op with
     | SessionOp.add id => (findClient id s.clients).isNone
     | SessionOp.remove _ => true)
    && freshAdds (applyOp s op) rest

/-! ### Output encoding (the `broadcast` payload)

`broadcast` runs `json.Marshal(string(data))`.  Go documents that string
values "encode as JSON strings coerced to valid UTF-8, replacing invalid
bytes with the Unicode replacement rune": the marshaller walks the byte
slice with `utf8.DecodeRune`, emitting each decoded rune, and each byte at
which decoding fails (an invalid start byte, a truncated sequence, an
overlong or out-of-range encoding, a surrogate) is replaced by one U+FFFD
and the walk advances one byte.  The JSON text therefore denotes exactly
the code-point sequence `utf8DecodeReplace data`; the receiving side parses
the JSON string (recovering those code points) and re-encodes them as
UTF-8 bytes.  The round trip is thus `utf8Encode ∘ utf8DecodeReplace`. -/

/-- A UTF-8 continuation byte, `0x80..0xBF`. -/
def isCont (b : Nat) : Bool := 0x80 ≤ b && b ≤ 0xBF

/-- Acceptance range of the second byte of a three-byte sequence headed by
`b0` (Go `unicode/utf8` acceptRanges: `0xE0` needs `0xA0..0xBF` to rule
out overlong forms, `0xED` needs `0x80..0x9F` to rule out surrogates). -/
def accept3 (b0 b1 : Nat) : Bool :=
  if b0 = 0xE0 then 0xA0 ≤ b1 && b1 ≤ 0xBF
  else if b0 = 0xED then 0x80 ≤ b1 && b1 ≤ 0x9F
  else isCont b1

/-- Acceptance range of the second byte of a four-byte sequence headed by
`b0` (`0xF0` needs `0x90..0xBF` against overlong forms, `0xF4` needs
`0x80..0x8F` to stay below U+110000). -/
def accept4 (b0 b1 : Nat) : Bool :=
  if b0 = 0xF0 then 0x90 ≤ b1 && b1 ≤ 0xBF
  else if b0 = 0xF4 then 0x80 ≤ b1 && b1 ≤ 0x8F
  else isCont b1

/-- The Unicode replacement character U+FFFD. -/
def replacementChar : Nat := 0xFFFD

/-- Go `unicode/utf8.DecodeRune` restricted to the walk `json.Marshal`
performs over a Go string's bytes: returns the first decoded code point
and the number of bytes consumed.  Every failure — stray continuation
byte, invalid or overlong start byte, out-of-range or surrogate encoding,
truncated sequence — returns `(RuneError, 1)`, i.e. one replacement
character consuming a single byte. -/
def decodeRune : List Nat → Nat × Nat
  | [] => (replacementChar, 1)
  | b0 :: t0 =>
    if b0 < 0x80 then (b0, 1)
    else if 0xC2 ≤ b0 && b0 ≤ 0xDF then
      match t0 with
      | b1 :: _ =>
        if isCont b1 then ((b0 - 0xC0) * 64 + (b1 - 0x80), 2)
        else (replacementChar, 1)
      | [] => (replacementChar, 1)
    else if 0xE0 ≤ b0 && b0 ≤ 0xEF then
      match t0 with
      | b1 :: b2 :: _ =>
        if accept3 b0 b1 && isCont b2 then
          ((b0 - 0xE0) * 4096 + (b1 - 0x80) * 64 + (b2 - 0x80), 3)
        else (replacementChar, 1)
      | _ => (replacementChar, 1)
    else if 0xF0 ≤ b0 && b0 ≤ 0xF4 then
      match t0 with
      | b1 :: b2 :: b3 :: _ =>
        if accept4 b0 b1 && isCont b2 && isCont b3 then
          ((b0 - 0xF0) * 262144 + (b1 - 0x80) * 4096 + (b2 - 0x80) * 64 + (b3 - 0x80), 4)
        else (replacementChar, 1)
      | _ => (replacementChar, 1)
    else (replacementChar, 1)

/-- Code-point sequence denoted by the JSON string `json.Marshal` produces
for a Go string holding the given bytes: repeatedly decode one rune with
`decodeRune` and advance by the consumed size (1 on every error, emitting
U+FFFD there). -/
def utf8DecodeReplace : List Nat → List Nat
  | [] => []
  | b0 :: t0 =>
    (decodeRune (b0 :: t0)).1 ::
      utf8DecodeReplace (List.drop ((decodeRune (b0 :: t0)).2 - 1) t0)
termination_by l => l.length
decreasing_by simp only [List.length_cons, List.length_drop]; omega

/-- UTF-8 encoding of one code point (the receiving side turns the parsed
JSON string back into bytes). -/
def utf8EncodeChar (c : Nat) : List Nat :=
  if c < 0x80 then [c]
  else if c < 0x800 then [0xC0 + c / 64, 0x80 + c % 64]
  else if c < 0x10000 then [0xE0 + c / 4096, 0x80 + c / 64 % 64, 0x80 + c % 64]
  else [0xF0 + c / 262144, 0x80 + c / 4096 % 64, 0x80 + c / 64 % 64, 0x80 + c % 64]

/-- UTF-8 encoding of a code-point sequence. -/
def utf8Encode : List Nat → List Nat
  | [] => []
  | c :: t => utf8EncodeChar c ++ utf8Encode t

/-- Whether a byte sequence is valid UTF-8: the decoding walk never hits
the error result `(RuneError, 1)`. -/
def validUtf8 : List Nat → Bool
  | [] => true
  | b0 :: t0 =>
    decide (decodeRune (b0 :: t0) ≠ (replacementChar, 1)) &&
      validUtf8 (List.drop ((decodeRune (b0 :: t0)).2 - 1) t0)
termination_by l => l.length
decreasing_by simp only [List.length_cons, List.length_drop]; omega

/-- The full observable round trip of one chunk of PTY output: bytes are
marshalled into the `output` envelope by `broadcast` and decoded back to
bytes on the receiving side. -/
def outputRoundTrip (data : List Nat) : List Nat :=
  utf8Encode (utf8DecodeReplace data)

/-! ### Idle watcher timing

`idleChecker` runs on a `time.NewTicker(10 * time.Second)`: its k-th wake
up is at `k * 10000` milliseconds.  On each tick it reads `last_active`
under `activeMu`, computes `idle := now - last_active`, and calls `Close`
(then exits) when `idle > idleTimeout`.  With no intervening activity,
`done` has fired by wall-clock time `t` exactly when some tick at or
before `t` observed `idle > idleTimeout`. -/

/-- The idle watcher's tick period in milliseconds (10 seconds). -/
def tickPeriodMs : Nat := 10000

/-- Whether the k-th tick (waking at `k * tickPeriodMs`) triggers `Close`:
elapsed time since `lastActive` exceeds the idle timeout. -/
def tickCloses (idleTimeout lastActive k : Nat) : Bool :=
  decide (idleTimeout + lastActive < tickPeriodMs * k)

/-- Whether, with no activity after `lastActive`, the idle watcher has
called `Close` (and hence `done` has fired) by time `t` milliseconds. -/
def doneFiredBy (idleTimeout lastActive t : Nat) : Bool :=
  (List.range (t / tickPeriodMs + 1)).any
    (fun k => decide (1 ≤ k) && tickCloses idleTimeout lastActive k)

/-! ### Helper lemmas -/

theorem findClient_insertClient (c : Client) (l : List Client) :
    findClient c.id (insertClient c l) = some c := by
  induction l with
  | nil => simp [insertClient, findClient]
  | cons d t ih =>
    by_cases h : d.id = c.id
    · simp [insertClient, findClient, h]
    · simp [insertClient, findClient, h, ih]

theorem findClient_sendToClient_self (id : String) (m : Msg) (l : List Client) (c : Client)
    (h : findClient id l = some c) :
    findClient id (sendToClient id m l) = some { c with sent := c.sent ++ [m] } := by
  induction l with
  | nil => simp [findClient] at h
  | cons d t ih =>
    by_cases hd : d.id = id
    · simp [findClient, hd] at h
      subst h
      simp [sendToClient, findClient, hd]
    · simp [findClient, hd] at h
      simp [sendToClient, findClient, hd]
      exact ih h

theorem findClient_map_sent (id : String) (g : Client → List Msg) (l : List Client) :
    findClient id (l.map (fun c => { c with sent := g c })) =
      (findClient id l).map (fun c => { c with sent := g c }) := by
  induction l with
  | nil => simp [findClient]
  | cons d t ih =>
    by_cases hd : d.id = id
    · simp [findClient, hd]
    · simp [findClient, hd, ih]

theorem closeSession_of_closed (s : Session) (h : s.closed = true) : closeSession s = s := by
  simp [closeSession, h]

theorem closeSession_closed_flag (s : Session) : (closeSession s).closed = true := by
  by_cases h : s.closed = true
  · rw [closeSession_of_closed s h]; exact h
  · simp [closeSession, h]

theorem closeSession_twice (s : Session) : closeSession (closeSession s) = closeSession s :=
  closeSession_of_closed _ (closeSession_closed_flag s)

theorem iterate_closeSession (m : Nat) (s : Session) :
    Nat.iterate closeSession (m + 1) s = closeSession s := by
  induction m with
  | zero => rfl
  | succ k ih => rw [Function.iterate_succ_apply', ih, closeSession_twice]

/-! ### Claim theorems -/

/-- C3: Close is idempotent and `on_close` fires exactly once.  Calling
`Close` `n ≥ 1` times from a not-yet-closed session produces the same end
state as calling it once, the `done` signal has fired when the first call
returns, and the `OnClose` callback runs exactly once over all the calls
(the `sync.Once` latch makes every later call a no-op). -/
theorem close_idempotent (s : Session) (n : Nat) (hc : s.closed = false) (hn : 1 ≤ n) :
    Nat.iterate closeSession n s = closeSession s
    ∧ (closeSession s).doneClosed = true
    ∧ (Nat.iterate closeSession n s).onCloseCount = s.onCloseCount + 1 := by
  obtain ⟨m, rfl⟩ : ∃ m, n = m + 1 := ⟨n - 1, by omega⟩
  refine ⟨iterate_closeSession m s, ?_, ?_⟩
  · simp [closeSession, hc]
  · rw [iterate_closeSession m s]
    simp [closeSession, hc]

/-- Witness for C3 at a fresh session and three `Close` calls. -/
theorem close_idempotent_witness :
    Nat.iterate closeSession 3 (newSession false 0) = closeSession (newSession false 0)
    ∧ (closeSession (newSession false 0)).doneClosed = true
    ∧ (Nat.iterate closeSession 3 (newSession false 0)).onCloseCount =
        (newSession false 0).onCloseCount + 1 :=
  close_idempotent (newSession false 0) 3 rfl (by decide)

/-- C4: input arbitration.  For an accepted `input` envelope whose data
decodes to `payload` and whose PTY write succeeds, the payload is appended
to the PTY write log exactly when `sharedInput` or the sender's
`IsController` holds; otherwise the log (indeed the whole state) is
untouched — in particular, with `sharedInput = false` a non-controller's
input writes no bytes. -/
theorem input_arbitration (s : Session) (c : Client) (payload : List Nat) (now : Nat) :
    ((handleInput s c (some payload) true now).1.ptyWrites = s.ptyWrites ++ [payload]
      ↔ (s.sharedInput = true ∨ c.isController = true))
    ∧ ((handleInput s c (some payload) true now).1.ptyWrites = s.ptyWrites
      ↔ ¬(s.sharedInput = true ∨ c.isController = true)) := by
  unfold handleInput canWrite touchActivity
  by_cases hs : s.sharedInput = true <;> by_cases hcc : c.isController = true <;>
    simp [hs, hcc]

/-- C10: malformed input payload is a frame no-op.  When the sender is
permitted to write but the `data` field is absent or not a valid JSON
string, the state is returned unchanged (so `last_active` and the PTY
write log are untouched) and the reader continues with the next message. -/
theorem malformed_input_frame_noop (s : Session) (c : Client) (writeOk : Bool) (now : Nat)
    (h : canWrite s c = true) :
    handleInput s c none writeOk now = (s, ReadOutcome.cont) := by
  unfold handleInput
  rw [h]
  simp

/-- Witness for C10: a controller sending garbage data leaves the fresh
session untouched. -/
theorem malformed_input_frame_noop_witness :
    handleInput (newSession false 0) { id := "a", isController := true, sent := [] }
      none true 99 = (newSession false 0, ReadOutcome.cont) :=
  malformed_input_frame_noop (newSession false 0)
    { id := "a", isController := true, sent := [] } true 99 (by decide)

/-- C9: the first participant added to an empty set becomes controller and
its first message is the `role` envelope carrying `role = "controller"`
and the session's shared-input flag; a participant added to a non-empty
set is assigned role `"viewer"` instead. -/
theorem first_client_controller (s : Session) (id : String) :
    (s.clients = [] →
      (addClient s id).clients =
        [{ id := id, isController := true,
           sent := [Msg.role "controller" (some s.sharedInput), Msg.clients 1] }])
    ∧ (s.clients ≠ [] →
      ∃ c, findClient id (addClient s id).clients = some c ∧
        c.isController = false ∧
        c.sent.head? = some (Msg.role "viewer" (some s.sharedInput))) := by
  constructor
  · intro h
    simp [addClient, h, insertClient, sendToClient, broadcastClientCount]
  · intro h
    have hne : s.clients.isEmpty = false := by
      cases hs : s.clients with
      | nil => exact absurd hs h
      | cons a t => rfl
    have h1 : findClient id
        (insertClient { id := id, isController := s.clients.isEmpty, sent := [] } s.clients) =
        some { id := id, isController := s.clients.isEmpty, sent := [] } :=
      findClient_insertClient
        { id := id, isController := s.clients.isEmpty, sent := [] } s.clients
    have h2 := findClient_sendToClient_self id
      (Msg.role (if s.clients.isEmpty then "controller" else "viewer") (some s.sharedInput))
      _ _ h1
    simp only [addClient, broadcastClientCount]
    rw [findClient_map_sent]
    rw [h2]
    simp [hne]

/-- Witness for C9 on a fresh session and then a second participant. -/
theorem first_client_controller_witness :
    ((addClient (newSession false 0) "a").clients =
      [{ id := "a", isController := true,
         sent := [Msg.role "controller" (some false), Msg.clients 1] }])
    ∧ ∃ c, findClient "b" (addClient (addClient (newSession false 0) "a") "b").clients = some c ∧
        c.isController = false ∧
        c.sent.head? = some (Msg.role "viewer" (some false)) :=
  ⟨(first_client_controller (newSession false 0) "a").1 rfl,
   (first_client_controller (addClient (newSession false 0) "a") "b").2 (by decide)⟩

theorem insertClient_fresh (c : Client) (l : List Client)
    (h : findClient c.id l = none) : insertClient c l = l ++ [c] := by
  induction l with
  | nil => rfl
  | cons d t ih =>
    by_cases hd : d.id = c.id
    · simp only [findClient, if_pos hd] at h
      simp at h
    · simp only [findClient, if_neg hd] at h
      simp only [insertClient, if_neg hd, ih h, List.cons_append]

theorem removeClient_found (s : Session) (id : String) (c : Client)
    (hf : findClient id s.clients = some c) :
    removeClient s id =
      broadcastClientCount
        { s with clients := successorStep c.isController (eraseClient id s.clients) } := by
  unfold removeClient
  rw [hf]

theorem removeClient_absent (s : Session) (id : String)
    (hf : findClient id s.clients = none) : removeClient s id = s := by
  unfold removeClient
  rw [hf]

theorem countP_promoteFirst_cons (p : Client) (rest : List Client) :
    (promoteFirst (p :: rest)).countP (fun c => c.isController) =
      rest.countP (fun c => c.isController) + 1 := by
  simp [promoteFirst, List.countP_cons]

theorem countP_sendToClient (id : String) (m : Msg) (l : List Client) :
    (sendToClient id m l).countP (fun c => c.isController) =
      l.countP (fun c => c.isController) := by
  induction l with
  | nil => rfl
  | cons d t ih =>
    by_cases hd : d.id = id
    · simp [sendToClient, hd, List.countP_cons]
    · simp [sendToClient, hd, List.countP_cons, ih]

theorem countP_eraseClient (id : String) (l : List Client) (c : Client)
    (h : findClient id l = some c) :
    l.countP (fun c => c.isController) =
      (eraseClient id l).countP (fun c => c.isController)
        + (if c.isController then 1 else 0) := by
  induction l with
  | nil => simp [findClient] at h
  | cons d t ih =>
    by_cases hd : d.id = id
    · simp only [findClient, if_pos hd, Option.some.injEq] at h
      subst h
      simp only [eraseClient, if_pos hd, List.countP_cons]
    · simp only [findClient, if_neg hd] at h
      simp only [eraseClient, if_neg hd, List.countP_cons, ih h]
      omega

theorem controllerCount_broadcast (s : Session) :
    controllerCount (broadcastClientCount s) = controllerCount s := by
  simp only [controllerCount, broadcastClientCount, List.countP_map]
  rfl

theorem findClient_ne_nil (id : String) (l : List Client) (c : Client)
    (h : findClient id l = some c) : l ≠ [] := by
  cases l with
  | nil => simp [findClient] at h
  | cons d t => simp

theorem controllerInv_applyOp (s : Session) (op : SessionOp)
    (hfresh : ∀ id, op = SessionOp.add id → findClient id s.clients = none)
    (hinv : s.clients ≠ [] → controllerCount s = 1) :
    (applyOp s op).clients ≠ [] → controllerCount (applyOp s op) = 1 := by
  cases op with
  | add id =>
    intro _
    have hf : findClient
        (Client.id { id := id, isController := s.clients.isEmpty, sent := [] })
        s.clients = none := hfresh id rfl
    show controllerCount (addClient s id) = 1
    unfold addClient
    rw [controllerCount_broadcast]
    show (sendToClient id _ _).countP (fun c => c.isController) = 1
    rw [countP_sendToClient, insertClient_fresh _ _ hf, List.countP_append]
    by_cases he : s.clients = []
    · simp [he, List.countP_cons]
    · have h1 : controllerCount s = 1 := hinv he
      have he2 : s.clients.isEmpty = false := by
        cases hs : s.clients with
        | nil => exact absurd hs he
        | cons a t => rfl
      simp only [controllerCount] at h1
      simp [h1, List.countP_cons, he2]
  | remove id =>
    show (removeClient s id).clients ≠ [] → controllerCount (removeClient s id) = 1
    cases hf : findClient id s.clients with
    | none =>
      rw [removeClient_absent s id hf]
      exact hinv
    | some c =>
      rw [removeClient_found s id c hf]
      intro hne
      have hl : s.clients ≠ [] := findClient_ne_nil id s.clients c hf
      have h1 : controllerCount s = 1 := hinv hl
      have hcount := countP_eraseClient id s.clients c hf
      simp only [controllerCount] at h1
      by_cases hcc : c.isController = true
      · cases hrest : eraseClient id s.clients with
        | nil =>
          rw [hrest] at hne
          simp [broadcastClientCount, successorStep, promoteFirst] at hne
        | cons p rest =>
          rw [controllerCount_broadcast]
          show (successorStep c.isController (p :: rest)).countP (fun c => c.isController) = 1
          rw [successorStep, if_pos ⟨hcc, by simp⟩, countP_promoteFirst_cons]
          rw [hrest, if_pos hcc, h1, List.countP_cons] at hcount
          split_ifs at hcount <;> omega
      · rw [controllerCount_broadcast]
        show (successorStep c.isController (eraseClient id s.clients)).countP
          (fun c => c.isController) = 1
        rw [successorStep, if_neg (fun hand => hcc hand.1)]
        rw [if_neg hcc, h1] at hcount
        omega

/-- C1 as stated is refuted by a duplicate-id `AddClient`: adding "a"
twice from the empty set leaves a non-empty participant set with zero
controllers (`AddClient` computes `isController` from `len(clients) == 0`,
which is false at the second add, and the map assignment replaces the old
controller record). -/
theorem controller_uniqueness_dup_id_cex :
    (runOps (newSession false 0) [SessionOp.add "a", SessionOp.add "a"]).clients ≠ []
    ∧ controllerCount (runOps (newSession false 0) [SessionOp.add "a", SessionOp.add "a"]) ≠ 1 := by
  decide

/-- C1 (amended): for every sequence of `AddClient`/`RemoveClient`
operations from the empty set in which each `AddClient` uses an id not
currently in the set, whenever the participant set is non-empty exactly
one participant holds the controller flag. -/
theorem controller_uniqueness_fresh_ids (ops : List SessionOp) (sh : Bool) (it : Nat)
    (h : freshAdds (newSession sh it) ops = true) :
    (runOps (newSession sh it) ops).clients ≠ [] →
    controllerCount (runOps (newSession sh it) ops) = 1 := by
  suffices H : ∀ ops1 s1, freshAdds s1 ops1 = true →
      (s1.clients ≠ [] → controllerCount s1 = 1) →
      ((runOps s1 ops1).clients ≠ [] → controllerCount (runOps s1 ops1) = 1) by
    exact H ops (newSession sh it) h (fun hne => absurd rfl hne)
  intro ops1
  induction ops1 with
  | nil => intro s1 _ hinv; exact hinv
  | cons op rest ih =>
    intro s1 hfr hinv
    simp only [freshAdds, Bool.and_eq_true] at hfr
    refine ih (applyOp s1 op) hfr.2 (controllerInv_applyOp s1 op ?_ hinv)
    intro id hop
    subst hop
    simpa using hfr.1

/-- Witness for C1 (amended): add "a", add "b", remove "a". -/
theorem controller_uniqueness_fresh_ids_witness :
    controllerCount (runOps (newSession false 0)
      [SessionOp.add "a", SessionOp.add "b", SessionOp.remove "a"]) = 1 :=
  controller_uniqueness_fresh_ids
    [SessionOp.add "a", SessionOp.add "b", SessionOp.remove "a"] false 0
    (by decide) (by decide)

/-- C2: controller succession.  If participant `id` holds the controller
flag and at least one other participant remains (`eraseClient` result
`p :: rest`), then `RemoveClient id` promotes exactly one remaining
participant — the chosen `p` gets `IsController := true` and a `role`
envelope whose data carries only `role = "controller"` (the `sharedInput`
field is absent, `none`) — while every other remaining participant keeps
its flag and receives only the `clients` count update. -/
theorem controller_succession (s : Session) (id : String) (c p : Client) (rest : List Client)
    (hf : findClient id s.clients = some c) (hc : c.isController = true)
    (hpr : eraseClient id s.clients = p :: rest) :
    (removeClient s id).clients =
      { p with isController := true,
               sent := p.sent ++ [Msg.role "controller" none,
                                  Msg.clients (rest.length + 1)] }
        :: rest.map (fun q => { q with sent := q.sent ++ [Msg.clients (rest.length + 1)] }) := by
  rw [removeClient_found s id c hf]
  rw [hpr]
  rw [successorStep, if_pos ⟨hc, by simp⟩]
  simp [broadcastClientCount, promoteFirst, promoteMsg, List.append_assoc]

/-- Witness for C2: with participants "a" (controller) and "b", removing
"a" promotes "b" and sends it the promotion role message followed by the
count update. -/
theorem controller_succession_witness :
    (removeClient (addClient (addClient (newSession false 0) "a") "b") "a").clients =
      [{ id := "b", isController := true,
         sent := [Msg.role "viewer" (some false), Msg.clients 2,
                  Msg.role "controller" none, Msg.clients 1] }] :=
  controller_succession (addClient (addClient (newSession false 0) "a") "b") "a"
    { id := "a", isController := true,
      sent := [Msg.role "controller" (some false), Msg.clients 1, Msg.clients 2] }
    { id := "b", isController := false,
      sent := [Msg.role "viewer" (some false), Msg.clients 2] }
    [] (by decide) rfl (by decide)

/-- C6 as stated is refuted: for the sole (controller) participant "a" of
a fresh session, an accepted input whose PTY write fails makes the reader
return (`exit`, hence the deferred `RemoveClient("a")`), but after that
removal the session is not closed and `done` has not fired — `readClient`
only does `return` on a write error and never calls `Close`. -/
theorem pty_write_error_no_close_cex :
    ((addClient (newSession false 0) "a").clients =
      [{ id := "a", isController := true,
         sent := [Msg.role "controller" (some false), Msg.clients 1] }])
    ∧ ((handleInput (addClient (newSession false 0) "a")
        { id := "a", isController := true,
          sent := [Msg.role "controller" (some false), Msg.clients 1] }
        (some [108, 115, 10]) false 5).2 = ReadOutcome.exit)
    ∧ ((removeClient (handleInput (addClient (newSession false 0) "a")
        { id := "a", isController := true,
          sent := [Msg.role "controller" (some false), Msg.clients 1] }
        (some [108, 115, 10]) false 5).1 "a").closed = false)
    ∧ ((removeClient (handleInput (addClient (newSession false 0) "a")
        { id := "a", isController := true,
          sent := [Msg.role "controller" (some false), Msg.clients 1] }
        (some [108, 115, 10]) false 5).1 "a").doneClosed = false) := by
  decide

/-- C6 (amended): a PTY write error on an accepted input terminates that
participant's reader (the `exit` outcome triggers the deferred
`RemoveClient` for that participant only) after the `touchActivity`
update; `Close` is not invoked by the write path — the session ends, with
`done` fired, only when the PTY read side fails (`readPTY` calls `Close`
on any read error, which a broken PTY produces). -/
theorem pty_write_error_exits_reader (s : Session) (c : Client) (payload : List Nat) (now : Nat)
    (h : canWrite s c = true) :
    handleInput s c (some payload) false now = (touchActivity s now, ReadOutcome.exit)
    ∧ (s.closed = false → doneSignalled (ptyReadStep s none now) = true) := by
  constructor
  · unfold handleInput
    rw [h]
    simp
  · intro hcl
    simp [ptyReadStep, closeSession, doneSignalled, hcl]

/-- Witness for C6 (amended) in shared-input mode with a viewer sender. -/
theorem pty_write_error_exits_reader_witness :
    (handleInput (newSession true 0) { id := "z", isController := false, sent := [] }
        (some [120]) false 3 = (touchActivity (newSession true 0) 3, ReadOutcome.exit))
    ∧ ((newSession true 0).closed = false →
        doneSignalled (ptyReadStep (newSession true 0) none 3) = true) :=
  pty_write_error_exits_reader (newSession true 0)
    { id := "z", isController := false, sent := [] } [120] 3 (by decide)

/-- C7 as stated is refuted: after `Close` has completed (latch set), a
later `AddClient("b")` still inserts a participant and delivers a `role`
and a `clients` message to its channel — `AddClient` never consults the
`done` signal, and since `Close` emptied the set the newcomer is even made
controller. -/
theorem post_close_addclient_cex :
    (closeSession (addClient (newSession false 0) "a")).closed = true
    ∧ (addClient (closeSession (addClient (newSession false 0) "a")) "b").clients =
        [{ id := "b", isController := true,
           sent := [Msg.role "controller" (some false), Msg.clients 1] }] := by
  decide

/-- C7 (amended): after the first `Close` completes, the PTY master is
closed, the child process is no longer running, the participant set is
empty, and no messages are delivered by any subsequent `RemoveClient`,
broadcast, PTY-reader step or repeated `Close` (all are no-ops on the
emptied state); a later `AddClient`, however, is not guarded by `done`
and still inserts a participant and messages it. -/
theorem post_close_quiescence (s : Session) (id : String) (data : List Nat) (now : Nat)
    (h : s.closed = false) :
    (closeSession s).ptyClosed = true
    ∧ (closeSession s).procRunning = false
    ∧ (closeSession s).clients = []
    ∧ removeClient (closeSession s) id = closeSession s
    ∧ (broadcastOutput (closeSession s) data).clients = []
    ∧ ptyReadStep (closeSession s) none now = closeSession s := by
  have hcl : (closeSession s).clients = [] := by
    simp [closeSession, h]
  refine ⟨by simp [closeSession, h], by simp [closeSession, h], hcl, ?_, ?_, ?_⟩
  · refine removeClient_absent _ id ?_
    rw [hcl]
    rfl
  · simp [broadcastOutput, hcl]
  · exact closeSession_twice s

/-- Witness for C7 (amended) on a fresh session. -/
theorem post_close_quiescence_witness :
    (closeSession (newSession false 0)).ptyClosed = true
    ∧ (closeSession (newSession false 0)).procRunning = false
    ∧ (closeSession (newSession false 0)).clients = []
    ∧ removeClient (closeSession (newSession false 0)) "x" = closeSession (newSession false 0)
    ∧ (broadcastOutput (closeSession (newSession false 0)) [104]).clients = []
    ∧ ptyReadStep (closeSession (newSession false 0)) none 42 =
        closeSession (newSession false 0) :=
  post_close_quiescence (newSession false 0) "x" [104] 42 rfl

/-- C8 as stated is refuted on its own numbers: with `idle_timeout = 50` ms
and no activity since construction (`lastActive = 0`), the idle watcher has
not fired by `t = 120` ms, because its ticker only wakes every 10 seconds
(first tick at 10000 ms), so `Done()` has not fired after 120 ms of
quiescence. -/
theorem idle_shutdown_120ms_cex : doneFiredBy 50 0 120 = false := by decide

/-- C8 (amended): the idle watcher ticks (every 10 s), reads `last_active`,
and calls `Close` when the elapsed time exceeds the idle timeout — so with
an idle timeout smaller than the tick period and no activity, `done` has
fired by any time at or past the first tick (10 s), not by 120 ms. -/
theorem idle_shutdown_first_tick (idleTimeout lastActive t : Nat)
    (h1 : idleTimeout + lastActive < tickPeriodMs) (h2 : tickPeriodMs ≤ t) :
    doneFiredBy idleTimeout lastActive t = true := by
  unfold doneFiredBy
  rw [List.any_eq_true]
  refine ⟨1, ?_, ?_⟩
  · rw [List.mem_range]
    have hd : 1 ≤ t / tickPeriodMs :=
      (Nat.one_le_div_iff (by decide : 0 < tickPeriodMs)).2 h2
    omega
  · simp only [tickCloses, tickPeriodMs] at h1 ⊢
    simp
    omega

/-- Witness for C8 (amended): timeout 50 ms, quiescent since time 0, the
first tick at 10 s closes the session. -/
theorem idle_shutdown_first_tick_witness : doneFiredBy 50 0 10000 = true :=
  idle_shutdown_first_tick 50 0 10000 (by decide) (by decide)

theorem utf8EncodeChar_ascii (b0 : Nat) (h : b0 < 0x80) : utf8EncodeChar b0 = [b0] := by
  unfold utf8EncodeChar
  rw [if_pos h]

theorem utf8EncodeChar_two (b0 b1 : Nat) (h0 : 0xC2 ≤ b0) (h1 : b0 ≤ 0xDF)
    (h2 : 0x80 ≤ b1) (h3 : b1 ≤ 0xBF) :
    utf8EncodeChar ((b0 - 0xC0) * 64 + (b1 - 0x80)) = [b0, b1] := by
  unfold utf8EncodeChar
  rw [if_neg (by omega), if_pos (by omega)]
  have e1 : 0xC0 + ((b0 - 0xC0) * 64 + (b1 - 0x80)) / 64 = b0 := by omega
  have e2 : 0x80 + ((b0 - 0xC0) * 64 + (b1 - 0x80)) % 64 = b1 := by omega
  rw [e1, e2]

theorem accept3_bounds (b0 b1 : Nat) (ha : accept3 b0 b1 = true) :
    0x80 ≤ b1 ∧ b1 ≤ 0xBF ∧ (b0 = 0xE0 → 0xA0 ≤ b1) := by
  unfold accept3 isCont at ha
  split_ifs at ha with hE hD
  · simp only [Bool.and_eq_true, decide_eq_true_eq] at ha
    exact ⟨by omega, ha.2, fun _ => ha.1⟩
  · simp only [Bool.and_eq_true, decide_eq_true_eq] at ha
    exact ⟨ha.1, by omega, fun hcon => absurd hcon hE⟩
  · simp only [Bool.and_eq_true, decide_eq_true_eq] at ha
    exact ⟨ha.1, ha.2, fun hcon => absurd hcon hE⟩

theorem utf8EncodeChar_three (b0 b1 b2 : Nat) (h0 : 0xE0 ≤ b0) (h1 : b0 ≤ 0xEF)
    (ha : accept3 b0 b1 = true) (h2 : 0x80 ≤ b2) (h3 : b2 ≤ 0xBF) :
    utf8EncodeChar ((b0 - 0xE0) * 4096 + (b1 - 0x80) * 64 + (b2 - 0x80)) = [b0, b1, b2] := by
  obtain ⟨hb1a, hb1b, hb1c⟩ := accept3_bounds b0 b1 ha
  have hcp : 0x800 ≤ (b0 - 0xE0) * 4096 + (b1 - 0x80) * 64 + (b2 - 0x80) := by
    rcases Nat.eq_or_lt_of_le h0 with he | hgt
    · have := hb1c he.symm
      omega
    · omega
  unfold utf8EncodeChar
  rw [if_neg (by omega), if_neg (by omega), if_pos (by omega)]
  have e1 : 0xE0 + ((b0 - 0xE0) * 4096 + (b1 - 0x80) * 64 + (b2 - 0x80)) / 4096 = b0 := by
    omega
  have e2 : 0x80 + ((b0 - 0xE0) * 4096 + (b1 - 0x80) * 64 + (b2 - 0x80)) / 64 % 64 = b1 := by
    omega
  have e3 : 0x80 + ((b0 - 0xE0) * 4096 + (b1 - 0x80) * 64 + (b2 - 0x80)) % 64 = b2 := by
    omega
  rw [e1, e2, e3]

theorem accept4_bounds (b0 b1 : Nat) (ha : accept4 b0 b1 = true) :
    0x80 ≤ b1 ∧ b1 ≤ 0xBF ∧ (b0 = 0xF0 → 0x90 ≤ b1) := by
  unfold accept4 isCont at ha
  split_ifs at ha with hE hD
  · simp only [Bool.and_eq_true, decide_eq_true_eq] at ha
    exact ⟨by omega, ha.2, fun _ => ha.1⟩
  · simp only [Bool.and_eq_true, decide_eq_true_eq] at ha
    exact ⟨ha.1, by omega, fun hcon => absurd hcon hE⟩
  · simp only [Bool.and_eq_true, decide_eq_true_eq] at ha
    exact ⟨ha.1, ha.2, fun hcon => absurd hcon hE⟩

theorem utf8EncodeChar_four (b0 b1 b2 b3 : Nat) (h0 : 0xF0 ≤ b0) (h1 : b0 ≤ 0xF4)
    (ha : accept4 b0 b1 = true) (h2 : 0x80 ≤ b2) (h3 : b2 ≤ 0xBF)
    (h4 : 0x80 ≤ b3) (h5 : b3 ≤ 0xBF) :
    utf8EncodeChar
        ((b0 - 0xF0) * 262144 + (b1 - 0x80) * 4096 + (b2 - 0x80) * 64 + (b3 - 0x80)) =
      [b0, b1, b2, b3] := by
  obtain ⟨hb1a, hb1b, hb1c⟩ := accept4_bounds b0 b1 ha
  have hcp : 0x10000 ≤
      (b0 - 0xF0) * 262144 + (b1 - 0x80) * 4096 + (b2 - 0x80) * 64 + (b3 - 0x80) := by
    rcases Nat.eq_or_lt_of_le h0 with he | hgt
    · have := hb1c he.symm
      omega
    · omega
  unfold utf8EncodeChar
  rw [if_neg (by omega), if_neg (by omega), if_neg (by omega)]
  have e1 : 0xF0 +
      ((b0 - 0xF0) * 262144 + (b1 - 0x80) * 4096 + (b2 - 0x80) * 64 + (b3 - 0x80)) / 262144 =
      b0 := by omega
  have e2 : 0x80 +
      ((b0 - 0xF0) * 262144 + (b1 - 0x80) * 4096 + (b2 - 0x80) * 64 + (b3 - 0x80)) / 4096 % 64 =
      b1 := by omega
  have e3 : 0x80 +
      ((b0 - 0xF0) * 262144 + (b1 - 0x80) * 4096 + (b2 - 0x80) * 64 + (b3 - 0x80)) / 64 % 64 =
      b2 := by omega
  have e4 : 0x80 +
      ((b0 - 0xF0) * 262144 + (b1 - 0x80) * 4096 + (b2 - 0x80) * 64 + (b3 - 0x80)) % 64 =
      b3 := by omega
  rw [e1, e2, e3, e4]

theorem decodeRune_valid_encode (b0 : Nat) (t0 : List Nat)
    (h : decodeRune (b0 :: t0) ≠ (replacementChar, 1)) :
    utf8EncodeChar (decodeRune (b0 :: t0)).1 ++
      List.drop ((decodeRune (b0 :: t0)).2 - 1) t0 = b0 :: t0 := by
  by_cases hlt : b0 < 0x80
  · simp only [decodeRune, if_pos hlt] at h ⊢
    simp [utf8EncodeChar_ascii b0 hlt]
  · by_cases h2 : (0xC2 ≤ b0 && b0 ≤ 0xDF) = true
    · cases t0 with
      | nil =>
        simp only [decodeRune, if_neg hlt, if_pos h2] at h
        exact absurd rfl h
      | cons b1 t1 =>
        by_cases hc : isCont b1 = true
        · simp only [decodeRune, if_neg hlt, if_pos h2, if_pos hc] at h ⊢
          have h2b := h2
          simp only [Bool.and_eq_true, decide_eq_true_eq] at h2b
          have hcb := hc
          unfold isCont at hcb
          simp only [Bool.and_eq_true, decide_eq_true_eq] at hcb
          rw [utf8EncodeChar_two b0 b1 h2b.1 h2b.2 hcb.1 hcb.2]
          simp
        · simp only [decodeRune, if_neg hlt, if_pos h2, if_neg hc] at h
          exact absurd rfl h
    · by_cases h3 : (0xE0 ≤ b0 && b0 ≤ 0xEF) = true
      · match t0 with
        | [] =>
          simp only [decodeRune, if_neg hlt, if_neg h2, if_pos h3] at h
          exact absurd rfl h
        | [b1] =>
          simp only [decodeRune, if_neg hlt, if_neg h2, if_pos h3] at h
          exact absurd rfl h
        | b1 :: b2 :: t2 =>
          by_cases hc : (accept3 b0 b1 && isCont b2) = true
          · simp only [decodeRune, if_neg hlt, if_neg h2, if_pos h3, if_pos hc] at h ⊢
            have h3b := h3
            simp only [Bool.and_eq_true, decide_eq_true_eq] at h3b
            have hcb := hc
            simp only [Bool.and_eq_true] at hcb
            have hc2 := hcb.2
            unfold isCont at hc2
            simp only [Bool.and_eq_true, decide_eq_true_eq] at hc2
            rw [utf8EncodeChar_three b0 b1 b2 h3b.1 h3b.2 hcb.1 hc2.1 hc2.2]
            simp
          · simp only [decodeRune, if_neg hlt, if_neg h2, if_pos h3, if_neg hc] at h
            exact absurd rfl h
      · by_cases h4 : (0xF0 ≤ b0 && b0 ≤ 0xF4) = true
        · match t0 with
          | [] =>
            simp only [decodeRune, if_neg hlt, if_neg h2, if_neg h3, if_pos h4] at h
            exact absurd rfl h
          | [b1] =>
            simp only [decodeRune, if_neg hlt, if_neg h2, if_neg h3, if_pos h4] at h
            exact absurd rfl h
          | [b1, b2] =>
            simp only [decodeRune, if_neg hlt, if_neg h2, if_neg h3, if_pos h4] at h
            exact absurd rfl h
          | b1 :: b2 :: b3 :: t3 =>
            by_cases hc : (accept4 b0 b1 && isCont b2 && isCont b3) = true
            · simp only [decodeRune, if_neg hlt, if_neg h2, if_neg h3, if_pos h4, if_pos hc]
                at h ⊢
              have h4b := h4
              simp only [Bool.and_eq_true, decide_eq_true_eq] at h4b
              have hcb := hc
              simp only [Bool.and_eq_true] at hcb
              have hc2 := hcb.1.2
              unfold isCont at hc2
              simp only [Bool.and_eq_true, decide_eq_true_eq] at hc2
              have hc3 := hcb.2
              unfold isCont at hc3
              simp only [Bool.and_eq_true, decide_eq_true_eq] at hc3
              rw [utf8EncodeChar_four b0 b1 b2 b3 h4b.1 h4b.2 hcb.1.1 hc2.1 hc2.2 hc3.1 hc3.2]
              simp
            · simp only [decodeRune, if_neg hlt, if_neg h2, if_neg h3, if_pos h4, if_neg hc]
                at h
              exact absurd rfl h
        · simp only [decodeRune, if_neg hlt, if_neg h2, if_neg h3, if_neg h4] at h
          exact absurd rfl h

theorem roundtrip_of_validUtf8 :
    ∀ l : List Nat, validUtf8 l = true → utf8Encode (utf8DecodeReplace l) = l := by
  intro l
  induction l using utf8DecodeReplace.induct with
  | case1 =>
    intro _
    simp [utf8DecodeReplace, utf8Encode]
  | case2 b0 t0 ih =>
    intro h
    rw [validUtf8.eq_def] at h
    dsimp only at h
    rw [Bool.and_eq_true, decide_eq_true_eq] at h
    obtain ⟨hne, hv⟩ := h
    rw [utf8DecodeReplace.eq_def]
    dsimp only
    simp only [utf8Encode]
    rw [ih hv]
    exact decodeRune_valid_encode b0 t0 hne

/-- C5 as stated is refuted at the single byte 0xFF (not valid UTF-8):
`json.Marshal` coerces the Go string to valid UTF-8, replacing the invalid
byte with U+FFFD, so the receiver decodes the three bytes EF BF BD rather
than the original FF. -/
theorem output_roundtrip_invalid_cex :
    outputRoundTrip [255] ≠ [255] ∧ outputRoundTrip [255] = [239, 191, 189] := by
  have he : outputRoundTrip [255] = [239, 191, 189] := by
    simp [outputRoundTrip, utf8DecodeReplace, decodeRune, utf8Encode, utf8EncodeChar,
      replacementChar]
  refine ⟨?_, he⟩
  rw [he]
  decide

/-- C5 (amended): the output round trip — marshalling PTY bytes as the
`output` payload and decoding the JSON payload on the receiving side —
recovers the original byte sequence exactly for every valid-UTF-8 byte
sequence; byte sequences that are not valid UTF-8 come back with each
offending byte replaced by U+FFFD (EF BF BD). -/
theorem output_roundtrip_valid_utf8 (data : List Nat) (h : validUtf8 data = true) :
    outputRoundTrip data = data :=
  roundtrip_of_validUtf8 data h

/-- Witness for C5 (amended): the bytes of the UTF-8 string containing a
two-byte character round-trip unchanged. -/
theorem output_roundtrip_valid_utf8_witness :
    outputRoundTrip [104, 101, 195, 169, 10] = [104, 101, 195, 169, 10] :=
  output_roundtrip_valid_utf8 [104, 101, 195, 169, 10]
    (by simp [validUtf8, decodeRune, isCont, replacementChar])

end VexShare
